import Mathlib

/-!
Verification of the liblogger dispatch and output subsystem.

Shallow embedding of `src/liblogger/src/config.rs`, `outputs.rs` and
`logger.rs`.  Pure Rust functions become Lean functions; stateful code is
explicit state passing; the file system is a list of (name, size) entries;
fallible code returns `Except`.  Machine integers (`u32`, `u64`) are `Nat`
with explicit bounds where they matter.
-/

namespace LibLogger

/-! ## LevelModel — config.rs -/

/-- `LogLevel` enum (config.rs lines 43-53). -/
inductive LogLevel
  | Debug
  | Info
  | Warn
  | Error
deriving DecidableEq, Repr

/-- `LogType` enum (config.rs lines 27-35). -/
inductive LogType
  | Console
  | File
  | Http
deriving DecidableEq, Repr

/-- `LogLevel::as_str` (config.rs lines 60-67). -/
def LogLevel.as_str : LogLevel → String
  | .Debug => "DEBUG"
  | .Info => "INFO"
  | .Warn => "WARN"
  | .Error => "ERROR"

/-- Rust's `str::to_lowercase`, modelled character-wise with
`Char.toLower`; the two agree on ASCII input. -/
def strToLower (s : String) : String := ⟨s.data.map Char.toLower⟩

/-- `LogLevel::from_str` (config.rs lines 73-81): lowercase the input and
match it against the four names sequentially; anything else is `Info`. -/
def LogLevel.from_str (s : String) : LogLevel :=
  let t := strToLower s
  if t = "debug" then .Debug
  else if t = "info" then .Info
  else if t = "warn" then .Warn
  else if t = "error" then .Error
  else .Info

/-- `LogLevel::should_log` (config.rs lines 90-113), the exact nested match
on the threshold and then on `self`. -/
def LogLevel.should_log (self threshold : LogLevel) : Bool :=
  match threshold with
  | .Debug => true
  | .Info =>
    match self with
    | .Debug => false
    | _ => true
  | .Warn =>
    match self with
    | .Debug | .Info => false
    | _ => true
  | .Error =>
    match self with
    | .Error => true
    | _ => false

/-- Position of a level in the documented total order
Debug < Info < Warn < Error (spec §3); used only to state claims. -/
def LogLevel.idx : LogLevel → Nat
  | .Debug => 0
  | .Info => 1
  | .Warn => 2
  | .Error => 3

/-! ## Configuration — config.rs -/

/-- `LogConfig` struct (config.rs lines 120-153), after deserialization. -/
structure LogConfig where
  log_type : LogType
  threshold : LogLevel
  file_path : String
  log_folder : String
  max_file_size_mb : Nat
  http_endpoint : String
  http_timeout_seconds : Nat
deriving DecidableEq, Repr

/-- `default_file_path` (config.rs lines 158-160). -/
def default_file_path : String := "app.log"

/-- `default_log_folder` (config.rs lines 163-165). -/
def default_log_folder : String := "logs"

/-- `default_max_file_size` (config.rs lines 168-170). -/
def default_max_file_size : Nat := 10

/-- `default_http_endpoint` (config.rs lines 173-175). -/
def default_http_endpoint : String := "http://localhost:8080/logs"

/-- `default_http_timeout` (config.rs lines 178-180). -/
def default_http_timeout : Nat := 5

/-- The `[logging]` section of the TOML file as seen by serde: which fields
are present.  `log_type` (TOML key `type`) and `threshold` carry no
`#[serde(default)]` attribute in config.rs, the other five fields do. -/
structure RawLoggingSection where
  log_type : Option LogType
  threshold : Option LogLevel
  file_path : Option String
  log_folder : Option String
  max_file_size_mb : Option Nat
  http_endpoint : Option String
  http_timeout_seconds : Option Nat
deriving DecidableEq, Repr

/-- Deserialization of `LogConfig` as dictated by the serde attributes on
the struct (config.rs lines 120-153): `type` and `threshold` are required
fields (missing means a deserialization error, surfaced by
`LogConfig::from_file` as `Failed to parse logging config`), while the
remaining five fields fall back to their `#[serde(default = ...)]`
functions when absent. -/
def LogConfig.fromRaw (r : RawLoggingSection) : Except String LogConfig :=
  match r.log_type with
  | none => .error "Failed to parse logging config: missing field type"
  | some t =>
    match r.threshold with
    | none => .error "Failed to parse logging config: missing field threshold"
    | some th =>
      .ok {
        log_type := t
        threshold := th
        file_path := r.file_path.getD default_file_path
        log_folder := r.log_folder.getD default_log_folder
        max_file_size_mb := r.max_file_size_mb.getD default_max_file_size
        http_endpoint := r.http_endpoint.getD default_http_endpoint
        http_timeout_seconds := r.http_timeout_seconds.getD default_http_timeout
      }

/-- `LogConfig::default` (config.rs lines 234-244). -/
def LogConfig.default : LogConfig where
  log_type := .Console
  threshold := .Info
  file_path := "app.log"
  log_folder := "logs"
  max_file_size_mb := 10
  http_endpoint := "http://localhost:8080/logs"
  http_timeout_seconds := 5

/-- A `RawLoggingSection` with every field unspecified. -/
def RawLoggingSection.empty : RawLoggingSection where
  log_type := none
  threshold := none
  file_path := none
  log_folder := none
  max_file_size_mb := none
  http_endpoint := none
  http_timeout_seconds := none

/-! ## Decimal formatting and parsing of `u32` values

Rotation file names embed a `u32` index printed with Rust's `Display`
(plain decimal, no sign) and scanned back with `str::parse::<u32>`
(optional leading `+`, one or more ASCII digits, value below `2^32`). -/

/-- The ASCII digit character for `d < 10`. -/
def decDigitChar (d : Nat) : Char := Char.ofNat (48 + d)

/-- Fuelled most-significant-first decimal digit expansion; `fuel > n`
makes it total on the numbers we use. -/
def natDigitsAux : Nat → Nat → List Char
  | 0, _ => []
  | fuel + 1, n =>
    if n < 10 then [decDigitChar n]
    else natDigitsAux fuel (n / 10) ++ [decDigitChar (n % 10)]

/-- Decimal rendering of a nonnegative integer, the embedding of Rust's
`Display` for `u32` (as used by `format!` in `rotate_logs`). -/
def natToString (n : Nat) : String := ⟨natDigitsAux (n + 1) n⟩

/-- One accumulation step of decimal parsing. -/
def decStep (acc : Nat) (c : Char) : Nat := acc * 10 + (c.toNat - 48)

/-- Accumulating decimal parse of a character list; fails on the first
non-digit character. -/
def parseDigitsAux : Nat → List Char → Option Nat
  | acc, [] => some acc
  | acc, c :: cs => if c.isDigit then parseDigitsAux (decStep acc c) cs else none

/-- `str::parse::<u32>` on a character list: an optional leading `+`,
then a nonempty run of ASCII digits whose value fits in 32 bits; anything
else is a parse error (`none`). -/
def parseU32Chars (cs0 : List Char) : Option Nat :=
  let cs := match cs0 with
    | '+' :: rest => rest
    | cs => cs
  if cs.isEmpty then none
  else
    match parseDigitsAux 0 cs with
    | none => none
    | some v => if v < 2 ^ 32 then some v else none

/-- The embedding of `str::parse::<u32>`. -/
def parseU32 (s : String) : Option Nat := parseU32Chars s.data

/-! ## Formatter

All three sinks and the stderr fallback share one line shape
(`"<ts> [<LEVEL>] [<file>:<line>] [<module>] <msg>"`, with
`" | Context: <ctx>"` appended when context is present); the writers that
end the line append `"\n"` themselves, exactly as the `format!` calls in
the source do. -/

/-- The common formatted log line (outputs.rs lines 70-76, 300-306,
logger.rs lines 128-134). -/
def formatLogLine (timestamp : String) (level : LogLevel) (message : String)
    (file : String) (line : Nat) (module : String) (context : Option String) :
    String :=
  match context with
  | some ctx =>
    timestamp ++ " [" ++ level.as_str ++ "] [" ++ file ++ ":" ++
      natToString line ++ "] [" ++ module ++ "] " ++ message ++
      " | Context: " ++ ctx
  | none =>
    timestamp ++ " [" ++ level.as_str ++ "] [" ++ file ++ ":" ++
      natToString line ++ "] [" ++ module ++ "] " ++ message

/-! ## FileOutput — outputs.rs

The log folder is modelled as a list of `(file name, byte size)` entries;
names are unique in every state we consider.  Directory creation, metadata
queries, opening, writing and flushing are modelled as succeeding; the one
fallible file-system operation kept explicit is the `fs::rename` inside
`rotate_logs`, which needs its source file to exist. -/

/-- A log folder: file names paired with their sizes in bytes. -/
abbrev Dir := List (String × Nat)

/-- Size of the named file, if present. -/
def lookupSize : Dir → String → Option Nat
  | [], _ => none
  | e :: d, name => if e.1 == name then some e.2 else lookupSize d name

/-- Remove the named file. -/
def removeName (d : Dir) (name : String) : Dir :=
  d.filter (fun e => e.1 != name)

/-- Grow the named file by `n` bytes (a `write_all` on its open handle). -/
def appendBytes (d : Dir) (name : String) (n : Nat) : Dir :=
  d.map (fun e => if e.1 == name then (e.1, e.2 + n) else e)

/-- `FileOutput` state (outputs.rs lines 126-134).  `file_stem` and
`extension` are `Path::file_stem` and `Path::extension` (`unwrap_or("")`)
of the configured file path; `current_file` records whether the
`Option<File>` handle is `Some`.  The async-side handle is not modelled
(the claims are about the synchronous writer). -/
structure FileOutput where
  file_stem : String
  extension : String
  max_file_size_bytes : Nat
  current_file : Bool
  current_size : Nat
deriving DecidableEq, Repr

/-- The active file's name, `<stem>.<ext>`; also the `backup_prefix` of
`rotate_logs`.  This models file names that carry an extension, where
`Path` decomposition and reassembly round-trip. -/
def FileOutput.fileName (fo : FileOutput) : String :=
  fo.file_stem ++ "." ++ fo.extension

/-- Rust's `str::starts_with`: the pattern's characters are an initial
segment of the string's. -/
def strStartsWith (s pre : String) : Bool :=
  pre.data == List.take pre.data.length s.data

/-- Drop the first `n` characters of a string. -/
def strDrop (s : String) (n : Nat) : String := ⟨s.data.drop n⟩

/-- The scan-loop body of `rotate_logs` for one directory entry
(outputs.rs lines 218-229): the entry contributes an index when its name
starts with `backup_prefix`, `strip_prefix` of `backup_prefix ++ "."`
succeeds (modelled as the starts-with test plus dropping that many
characters), and the remainder parses as a `u32`. -/
def backupIndexOf (backupPre entryName : String) : Option Nat :=
  if strStartsWith entryName backupPre then
    if strStartsWith entryName (backupPre ++ ".") then
      parseU32 (strDrop entryName (backupPre ++ ".").data.length)
    else none
  else none

/-- One iteration of the `rotate_logs` scan loop: fold in an entry's
backup index, if any. -/
def maxBackupStep (backupPre : String) (m : Nat) (e : String × Nat) : Nat :=
  match backupIndexOf backupPre e.1 with
  | some i => Nat.max m i
  | none => m

/-- `max_index` as computed by the `rotate_logs` scan (outputs.rs lines
215-231): the fold of `Nat.max` over all matching entries, starting at 0. -/
def maxBackupIndex (backupPre : String) (d : Dir) : Nat :=
  d.foldl (maxBackupStep backupPre) 0

/-- The rotation target name bearing index `i`: what `with_extension`
produces for a file name with a nonempty stem, `<stem>.<ext>.<i>`. -/
def FileOutput.backupName (fo : FileOutput) (i : Nat) : String :=
  fo.file_stem ++ "." ++ (fo.extension ++ "." ++ natToString i)

/-- `FileOutput::rotate_logs` (outputs.rs lines 205-239): scan the folder
for the highest numbered backup, then rename the current file to
`<stem>.<ext>.<max_index + 1>` (the `with_extension` call, for file names
with a nonempty stem).  `fs::rename` replaces an existing destination and
fails when the source is missing.  The `u32` increment `max_index + 1` is
modelled on `Nat`; the claims that depend on it carry the no-overflow
bound `max_index + 1 < 2^32` under which the Rust arithmetic agrees. -/
def FileOutput.rotate_logs (fo : FileOutput) (d : Dir) : Except String Dir :=
  let newName := fo.backupName (maxBackupIndex fo.fileName d + 1)
  match lookupSize d fo.fileName with
  | none => .error "Failed to rotate log file: source file missing"
  | some sz => .ok (removeName (removeName d fo.fileName) newName ++ [(newName, sz)])

/-- `FileOutput::open_or_rotate` (outputs.rs lines 168-203): read the
file's size from disk; if it exists at or above the threshold, rotate and
reset the counter; then open in create-append mode (creating an empty file
when absent) and remember the handle. -/
def FileOutput.open_or_rotate (fo : FileOutput) (d : Dir) :
    Except String (FileOutput × Dir) :=
  let file_exists := (lookupSize d fo.fileName).isSome
  let current_size := (lookupSize d fo.fileName).getD 0
  if file_exists && decide (current_size ≥ fo.max_file_size_bytes) then
    match fo.rotate_logs d with
    | .error e => .error e
    | .ok d' =>
      .ok ({ fo with current_size := 0, current_file := true }, d' ++ [(fo.fileName, 0)])
  else
    let d' := if file_exists then d else d ++ [(fo.fileName, 0)]
    .ok ({ fo with current_size := current_size, current_file := true }, d')

/-- `FileOutput::new` (outputs.rs lines 137-166): build the state with the
threshold `max_file_size_mb * 1024 * 1024` bytes and immediately open (or
rotate) the file. -/
def FileOutput.new (config : LogConfig) (file_stem extension : String) (d : Dir) :
    Except String (FileOutput × Dir) :=
  FileOutput.open_or_rotate
    { file_stem := file_stem
      extension := extension
      max_file_size_bytes := config.max_file_size_mb * 1024 * 1024
      current_file := false
      current_size := 0 }
    d

/-- The byte length of one formatted, newline-terminated log line: the
`log_line.as_bytes().len()` of `FileOutput::write_log`. -/
def lineBytes (timestamp : String) (level : LogLevel) (message : String)
    (file : String) (line : Nat) (module : String) (context : Option String) :
    Nat :=
  (formatLogLine timestamp level message file line module context ++ "\n").utf8ByteSize

/-- `FileOutput::write_log` (outputs.rs lines 285-341): open if no handle;
format the line and measure its byte length; rotate first when
`current_size + line_len > max_file_size_bytes`; then write, flush, and
add the byte length to the running counter. -/
def FileOutput.write_log (fo : FileOutput) (d : Dir)
    (timestamp : String) (level : LogLevel) (message : String)
    (file : String) (line : Nat) (module : String) (context : Option String) :
    Except String (FileOutput × Dir) :=
  match (if fo.current_file then .ok (fo, d) else fo.open_or_rotate d :
      Except String (FileOutput × Dir)) with
  | .error e => .error e
  | .ok (fo1, d1) =>
    let bytes := lineBytes timestamp level message file line module context
    let need_rotation :=
      fo1.current_file && decide (fo1.current_size + bytes > fo1.max_file_size_bytes)
    match (if need_rotation then
        match FileOutput.rotate_logs { fo1 with current_file := false } d1 with
        | .error e => .error e
        | .ok d2 => FileOutput.open_or_rotate { fo1 with current_file := false } d2
      else .ok (fo1, d1) : Except String (FileOutput × Dir)) with
    | .error e => .error e
    | .ok (fo2, d2) =>
      if fo2.current_file then
        .ok ({ fo2 with current_size := fo2.current_size + bytes },
          appendBytes d2 fo2.fileName bytes)
      else
        .ok (fo2, d2)

/-! ## HttpOutput — outputs.rs -/

/-- The serialized body of one HTTP log POST (outputs.rs lines 401-411);
`context` is skipped entirely when `None`. -/
structure LogPayload where
  timestamp : String
  level : String
  message : String
  file : String
  line : Nat
  module : String
  context : Option String
deriving DecidableEq, Repr

/-- What the network does with one POST: a response with some status
code, or a transport/timeout error.  This parameterizes `write_log`,
which is deterministic given it. -/
inductive HttpResult
  | response (status : Nat)
  | transportError (msg : String)
deriving DecidableEq, Repr

/-- `reqwest::StatusCode::is_success`: the 2xx class. -/
def statusIsSuccess (status : Nat) : Bool :=
  decide (200 ≤ status) && decide (status < 300)

/-- The `LogPayload` built by `HttpOutput::write_log` (outputs.rs lines
449-457): the level goes in as its display string. -/
def mkLogPayload (timestamp : String) (level : LogLevel) (message : String)
    (file : String) (line : Nat) (module : String) (context : Option String) :
    LogPayload :=
  { timestamp := timestamp
    level := level.as_str
    message := message
    file := file
    line := line
    module := module
    context := context }

/-- `HttpOutput::write_log` (outputs.rs lines 440-474): build the payload,
issue one POST, and fail on a transport error or a non-2xx status.  The
result's first component counts the POSTs issued during the call (the
source sends exactly once and never retries or buffers). -/
def HttpOutput.write_log (net : LogPayload → HttpResult)
    (timestamp : String) (level : LogLevel) (message : String)
    (file : String) (line : Nat) (module : String) (context : Option String) :
    Nat × Except String Unit :=
  let payload : LogPayload :=
    mkLogPayload timestamp level message file line module context
  match net payload with
  | .response status =>
    if !statusIsSuccess status then
      (1, .error ("HTTP log failed with status: " ++ natToString status))
    else
      (1, .ok ())
  | .transportError e => (1, .error ("Failed to send HTTP log: " ++ e))

/-! ## DispatchCore — logger.rs

The async channel is a bounded FIFO queue; `closed` records that the
receiver was dropped.  A `Box<dyn LogOutput>` backend is modelled as the
list of `write_log` calls it has received; the stderr stream is a list of
lines. -/

/-- `LogMessage` (logger.rs lines 33-41): one record travelling through
the async channel; also the shape of one `write_log` call on a backend. -/
structure LogMessage where
  timestamp : String
  level : LogLevel
  message : String
  context : Option String
  file : String
  line : Nat
  module : String
deriving DecidableEq, Repr

/-- Why `tokio::sync::mpsc::Sender::try_send` can fail. -/
inductive SendError
  | full
  | closed
deriving DecidableEq, Repr

/-- A bounded mpsc channel as seen from the sender side. -/
structure Channel where
  capacity : Nat
  queue : List LogMessage
  closed : Bool
deriving DecidableEq, Repr

/-- `Sender::try_send`: fails with `Closed` when the receiver is gone and
with `Full` when the buffer is at capacity; otherwise enqueues at the
back. -/
def Channel.try_send (c : Channel) (m : LogMessage) : Except SendError Channel :=
  if c.closed then .error .closed
  else if decide (c.queue.length ≥ c.capacity) then .error .full
  else .ok { c with queue := c.queue ++ [m] }

/-- `LoggerInner` (logger.rs lines 43-52).  `output` is the synchronous
fallback backend, recorded as its list of received `write_log` calls;
`async_sender` holds the channel when present. -/
structure LoggerInner where
  initialized : Bool
  config : Option LogConfig
  output : Option (List LogMessage)
  async_sender : Option Channel
  async_enabled : Bool
deriving DecidableEq, Repr

/-- `LoggerInner::new` (logger.rs lines 59-67). -/
def LoggerInner.new : LoggerInner where
  initialized := false
  config := none
  output := none
  async_sender := none
  async_enabled := false

/-- `LoggerInner::init_with_config` (logger.rs lines 83-120), with the two
fallible external steps (`create_log_output`, obtaining the Tokio runtime)
as boolean parameters.  The source assigns `config`, then `output` (the
`?` on `create_log_output` returns before the assignment on failure), then
the runtime, then a fresh capacity-1024 channel, and only then sets
`initialized` and `async_enabled`.  The spawned consumer task is modelled
separately (`AsyncSystem`). -/
def LoggerInner.init_with_config (s : LoggerInner) (config : LogConfig)
    (createOutputOk : Bool) (runtimeOk : Bool) :
    LoggerInner × Except String Unit :=
  let s := { s with config := some config }
  if !createOutputOk then
    (s, .error "failed to create log output")
  else
    let s := { s with output := some [] }
    if !runtimeOk then
      (s, .error "Failed to create Tokio runtime")
    else
      let s := { s with async_sender := some { capacity := 1024, queue := [], closed := false } }
      ({ s with initialized := true, async_enabled := true }, .ok ())

/-- `LoggerInner::log` (logger.rs lines 122-183): uninitialized (or
async-disabled) states write the formatted line to stderr; otherwise the
record is gated on the configured threshold, then enqueued with
`try_send`, falling back to a synchronous `output.write_log` call when the
send fails or no sender exists.  Returns the new state and the stderr
stream. -/
def LoggerInner.log (s : LoggerInner) (stderr : List String)
    (timestamp : String) (level : LogLevel) (message : String)
    (context : Option String) (file : String) (line : Nat) (module : String) :
    LoggerInner × List String :=
  if !s.initialized || !s.async_enabled then
    (s, stderr ++ [formatLogLine timestamp level message file line module context ++ "\n"])
  else
    match s.config with
    | none => (s, stderr)
    | some config =>
      if level.should_log config.threshold then
        let msg : LogMessage :=
          { timestamp := timestamp
            level := level
            message := message
            context := context
            file := file
            line := line
            module := module }
        match s.async_sender with
        | some ch =>
          match ch.try_send msg with
          | .ok ch' => ({ s with async_sender := some ch' }, stderr)
          | .error _ =>
            match s.output with
            | some out => ({ s with output := some (out ++ [msg]) }, stderr)
            | none => (s, stderr)
        | none =>
          match s.output with
          | some out => ({ s with output := some (out ++ [msg]) }, stderr)
          | none => (s, stderr)
      else (s, stderr)

/-! ## Logger entry points — logger.rs

The process-wide `Arc<Mutex<LoggerInner>>` is modelled as the inner state
plus a `poisoned` flag recording whether a prior panic occurred while the
mutex was held.  `Mutex::lock` then returns `Err(poisoned_guard)`;
whether an entry point recovers (via `PoisonError::into_inner`) or takes
another path is exactly what its source shows. -/

/-- The global logger cell: inner state plus mutex poison flag. -/
structure GlobalLogger where
  inner : LoggerInner
  poisoned : Bool
deriving DecidableEq, Repr

/-- `Path::new(file).file_name()` with fallback to `file`
(logger.rs lines 289-292), modelled for ordinary forward-slash paths:
everything after the last separator. -/
def baseNameOfPath (file : String) : String :=
  ⟨file.data.foldl (fun acc c => if c = '/' then [] else acc ++ [c]) []⟩

/-- `Logger::init_with_config` (logger.rs lines 243-265): lock the mutex;
when the guard is poisoned, recover with `into_inner` and continue on the
same inner state; either way run `LoggerInner::init_with_config` on it.
The poison flag itself is not cleared by `into_inner`. -/
def Logger.init_with_config (g : GlobalLogger) (config : LogConfig)
    (createOutputOk : Bool) (runtimeOk : Bool) :
    GlobalLogger × Except String Unit :=
  let p := g.inner.init_with_config config createOutputOk runtimeOk
  ({ g with inner := p.1 }, p.2)

/-- `Logger::log_with_metadata` (logger.rs lines 287-308): shorten the
file path to its base name; `if let Ok(..) = logger.lock()` runs
`LoggerInner::log` only when the mutex is not poisoned; a poisoned mutex
sends the line, marked `MUTEX POISONED` and without context, to stderr
and leaves the inner state untouched. -/
def Logger.log_with_metadata (g : GlobalLogger) (stderr : List String)
    (timestamp : String) (level : LogLevel) (message : String)
    (context : Option String) (file : String) (line : Nat) (module : String) :
    GlobalLogger × List String :=
  let file_name := baseNameOfPath file
  if g.poisoned then
    (g, stderr ++
      [timestamp ++ " [" ++ level.as_str ++ "] [" ++ file_name ++ ":" ++
        natToString line ++ "] [" ++ module ++ "] " ++ message ++
        " | MUTEX POISONED\n"])
  else
    let p := g.inner.log stderr timestamp level message context file_name line module
    ({ g with inner := p.1 }, p.2)

/-! ## Shutdown and the consumer task — logger.rs

`process_log_messages` (logger.rs lines 187-203) is the single consumer:
it receives buffered records and writes each to its own backend.  One
`consumerStep` is one iteration of that loop.  How many iterations run
during any wall-clock interval is the scheduler's choice, so it is a
parameter of the model. -/

/-- State of the async delivery path: the channel, the consumer backend's
received records, and whether anything has signalled the consumer to stop
accepting new work. -/
structure AsyncSystem where
  channel : Channel
  backendOutput : List LogMessage
  stopSignalled : Bool
deriving DecidableEq, Repr

/-- One iteration of the `process_log_messages` receive loop: pop the
oldest buffered record and write it to the consumer's backend. -/
def consumerStep (s : AsyncSystem) : AsyncSystem :=
  match s.channel.queue with
  | [] => s
  | m :: rest =>
    { s with
      channel := { s.channel with queue := rest }
      backendOutput := s.backendOutput ++ [m] }

/-- `k` consumer iterations. -/
def consumerSteps : Nat → AsyncSystem → AsyncSystem
  | 0, s => s
  | k + 1, s => consumerSteps k (consumerStep s)

/-- `Logger::shutdown` (logger.rs lines 311-327): spawn a one-second sleep
on the runtime, sleep the calling thread for two seconds, print, return
`Ok`.  It performs no operation on the channel, the senders, or the
consumer; the only thing that happens to the async system during the
grace period is whatever number `k` of consumer iterations the scheduler
runs, which `shutdown` neither controls nor observes. -/
def Logger.shutdown (s : AsyncSystem) (k : Nat) : AsyncSystem × Except String Unit :=
  (consumerSteps k s, .ok ())

/-! ## Lemmas about decimal rendering and parsing -/

/-- For `d < 10`, the digit character is a digit, carries value `d`, and
is not `'+'`. -/
theorem decDigitChar_spec (d : Nat) (h : d < 10) :
    (decDigitChar d).isDigit = true ∧ (decDigitChar d).toNat = 48 + d ∧
      decDigitChar d ≠ '+' := by
  interval_cases d <;> exact ⟨by decide, by decide, by decide⟩

/-- With enough fuel, the digit expansion of `n` is a nonempty all-digit
list whose decimal value is `n`. -/
theorem natDigitsAux_spec (fuel : Nat) :
    ∀ n, n < fuel →
      natDigitsAux fuel n ≠ [] ∧
      (∀ c ∈ natDigitsAux fuel n, c.isDigit = true) ∧
      List.foldl decStep 0 (natDigitsAux fuel n) = n := by
  induction fuel with
  | zero => intro n h; omega
  | succ fuel ih =>
    intro n h
    by_cases h10 : n < 10
    · simp only [natDigitsAux, if_pos h10]
      obtain ⟨hd, ht, -⟩ := decDigitChar_spec n h10
      refine ⟨by simp, ?_, ?_⟩
      · intro c hc
        rw [List.mem_singleton.mp hc]
        exact hd
      · simp only [List.foldl_cons, List.foldl_nil, decStep, ht]
        omega
    · simp only [natDigitsAux, if_neg h10]
      have hx : n / 10 < fuel := by omega
      obtain ⟨h1, h2, h3⟩ := ih (n / 10) hx
      obtain ⟨hd, ht, -⟩ := decDigitChar_spec (n % 10) (Nat.mod_lt n (by norm_num))
      refine ⟨by simp [h1], ?_, ?_⟩
      · intro c hc
        rcases List.mem_append.mp hc with hc | hc
        · exact h2 c hc
        · rw [List.mem_singleton.mp hc]
          exact hd
      · rw [List.foldl_append, h3]
        simp only [List.foldl_cons, List.foldl_nil, decStep, ht]
        omega

/-- Parsing an all-digit list succeeds with its folded decimal value. -/
theorem parseDigitsAux_of_digits (l : List Char) :
    ∀ acc, (∀ c ∈ l, c.isDigit = true) →
      parseDigitsAux acc l = some (List.foldl decStep acc l) := by
  induction l with
  | nil => intro acc _; rfl
  | cons c cs ih =>
    intro acc hdig
    have hc := hdig c (List.mem_cons_self c cs)
    simp only [parseDigitsAux, hc, if_true, List.foldl_cons]
    exact ih (decStep acc c) (fun x hx => hdig x (List.mem_cons_of_mem c hx))

/-- `parseU32Chars` of a nonempty all-digit list is its decimal value. -/
theorem parseU32Chars_of_digits (l : List Char) (hne : l ≠ [])
    (hdig : ∀ c ∈ l, c.isDigit = true)
    (hval : List.foldl decStep 0 l < 2 ^ 32) :
    parseU32Chars l = some (List.foldl decStep 0 l) := by
  cases l with
  | nil => exact absurd rfl hne
  | cons c cs =>
    have hc := hdig c (List.mem_cons_self c cs)
    have hcp : c ≠ '+' := by
      intro e
      rw [e] at hc
      exact absurd hc (by decide)
    have hm : (match c :: cs with
        | '+' :: rest => rest
        | l => l) = c :: cs := by
      split
      · rename_i rest heq
        rw [List.cons_eq_cons] at heq
        exact absurd heq.1 hcp
      · rfl
    unfold parseU32Chars
    rw [hm]
    dsimp only
    rw [parseDigitsAux_of_digits (c :: cs) 0 hdig]
    simp only [List.foldl_cons] at hval ⊢
    simpa using hval

/-- Round trip: parsing the decimal rendering of `n < 2^32` gives `n`. -/
theorem parseU32_natToString (n : Nat) (h : n < 2 ^ 32) :
    parseU32 (natToString n) = some n := by
  obtain ⟨hne, hdig, hval⟩ := natDigitsAux_spec (n + 1) n (Nat.lt_succ_self n)
  have hval2 : List.foldl decStep 0 (natDigitsAux (n + 1) n) < 2 ^ 32 := by
    rw [hval]; exact h
  have hmain := parseU32Chars_of_digits (natDigitsAux (n + 1) n) hne hdig hval2
  rw [hval] at hmain
  exact hmain

/-- `natToString` produces a nonempty character list. -/
theorem natToString_ne_nil (n : Nat) : (natToString n).data ≠ [] :=
  (natDigitsAux_spec (n + 1) n (Nat.lt_succ_self n)).1

/-! ## Lemmas about the modelled string primitives -/

/-- A string extended on the right starts with itself. -/
theorem strStartsWith_append (x y : String) : strStartsWith (x ++ y) x = true := by
  unfold strStartsWith
  rw [String.data_append, List.take_left]
  exact beq_self_eq_true _

/-- `x` does not start with `x ++ "." `. -/
theorem strStartsWith_dot_self (x : String) :
    strStartsWith x (x ++ ".") = false := by
  unfold strStartsWith
  rw [String.data_append]
  refine beq_eq_false_iff_ne.mpr fun hEq => ?_
  have hlen := congrArg List.length hEq
  simp [List.length_take] at hlen

/-- Dropping a left factor's characters recovers the right factor. -/
theorem strDrop_append (x y : String) :
    strDrop (x ++ y) x.data.length = y := by
  unfold strDrop
  rw [String.data_append, List.drop_left]

/-- Splitting the backup name: `<stem>.<ext ++ "." ++ i>` regrouped as
`<stem>.<ext>` followed by `"." ++ i`. -/
theorem append_regroup (stem ext nts : String) :
    stem ++ "." ++ (ext ++ "." ++ nts) = stem ++ "." ++ ext ++ "." ++ nts := by
  apply String.ext
  simp [String.data_append, List.append_assoc]

/-- A backup name is strictly longer than the base name, hence distinct
from it. -/
theorem backupName_ne_fileName (fo : FileOutput) (i : Nat) :
    fo.backupName i ≠ fo.fileName := by
  intro hEq
  have hlen := congrArg (fun s : String => s.data.length) hEq
  have hnts : 0 < (natToString i).data.length :=
    List.length_pos.mpr (natToString_ne_nil i)
  unfold FileOutput.backupName FileOutput.fileName at hlen
  simp [String.data_append] at hlen

/-- The scan sees the backup name for index `i < 2^32` as a backup with
exactly that index. -/
theorem backupIndexOf_backupName (fo : FileOutput) (i : Nat) (h : i < 2 ^ 32) :
    backupIndexOf fo.fileName (fo.backupName i) = some i := by
  unfold backupIndexOf
  have hsplit : fo.backupName i = fo.fileName ++ "." ++ natToString i := by
    unfold FileOutput.backupName FileOutput.fileName
    exact append_regroup fo.file_stem fo.extension (natToString i)
  rw [hsplit]
  rw [show fo.fileName ++ "." ++ natToString i = (fo.fileName ++ ".") ++ natToString i from rfl]
  rw [strStartsWith_append (fo.fileName ++ ".") (natToString i)]
  have h1 : strStartsWith (fo.fileName ++ "." ++ natToString i) fo.fileName = true := by
    have := strStartsWith_append fo.fileName ("." ++ natToString i)
    rw [show fo.fileName ++ ("." ++ natToString i) =
      fo.fileName ++ "." ++ natToString i from (String.append_assoc _ _ _).symm] at this
    exact this
  rw [h1]
  simp only [if_true]
  rw [strDrop_append (fo.fileName ++ ".") (natToString i)]
  exact parseU32_natToString i h

/-- The active file's own name is not counted as a backup by the scan. -/
theorem backupIndexOf_fileName (fo : FileOutput) :
    backupIndexOf fo.fileName fo.fileName = none := by
  unfold backupIndexOf
  rw [strStartsWith_dot_self]
  simp [strStartsWith]

/-! ## Lemmas about the scan fold and the folder model -/

/-- The fold over entries only grows its accumulator. -/
theorem le_foldl_maxBackupStep (pre : String) (d : Dir) :
    ∀ a : Nat, a ≤ d.foldl (maxBackupStep pre) a := by
  induction d with
  | nil => exact fun a => Nat.le_refl a
  | cons e d ih =>
    intro a
    refine Nat.le_trans ?_ (ih (maxBackupStep pre a e))
    unfold maxBackupStep
    split
    · exact Nat.le_max_left _ _
    · exact Nat.le_refl a

/-- Every backup index found in the folder is bounded by the fold's
result. -/
theorem backupIndex_le_foldl (pre : String) (e : String × Nat) (i : Nat)
    (hi : backupIndexOf pre e.1 = some i) :
    ∀ (d : Dir) (a : Nat), e ∈ d → i ≤ d.foldl (maxBackupStep pre) a := by
  intro d
  induction d with
  | nil => intro a he; cases he
  | cons x d ih =>
    intro a he
    rcases List.mem_cons.mp he with rfl | hmem
    · refine Nat.le_trans ?_ (le_foldl_maxBackupStep pre d _)
      unfold maxBackupStep
      rw [hi]
      exact Nat.le_max_right _ _
    · exact ih _ hmem

/-- Every backup index present in the folder is at most `max_index`. -/
theorem backupIndex_le_maxBackupIndex (pre : String) (d : Dir)
    (e : String × Nat) (he : e ∈ d) (i : Nat)
    (hi : backupIndexOf pre e.1 = some i) :
    i ≤ maxBackupIndex pre d :=
  backupIndex_le_foldl pre e i hi d 0 he

/-- Membership in `removeName`: everything but entries bearing the
removed name. -/
theorem mem_removeName (d : Dir) (n : String) (e : String × Nat) :
    e ∈ removeName d n ↔ e ∈ d ∧ e.1 ≠ n := by
  unfold removeName
  rw [List.mem_filter]
  exact and_congr_right fun _ => bne_iff_ne

/-- Looking up the freshly renamed entry. -/
theorem lookupSize_removeName_append (d : Dir) (n : String) (sz : Nat) :
    lookupSize (removeName d n ++ [(n, sz)]) n = some sz := by
  induction d with
  | nil => simp [removeName, lookupSize]
  | cons e d ih =>
    unfold removeName at ih ⊢
    rw [List.filter_cons]
    by_cases he : e.1 = n
    · have hb : (e.1 != n) = false := by simp [he]
      rw [hb]
      exact ih
    · have hb : (e.1 != n) = true := by simp [he]
      rw [hb]
      simp only [if_true, List.cons_append]
      unfold lookupSize
      rw [if_neg (by simpa using he)]
      exact ih

/-- A lookup for a name sees through an appended entry of another name. -/
theorem lookupSize_append_single_ne (d : Dir) (n m : String) (sz : Nat)
    (h : n ≠ m) :
    lookupSize (d ++ [(m, sz)]) n = lookupSize d n := by
  induction d with
  | nil => simp [lookupSize, Ne.symm h]
  | cons e d ih =>
    rw [List.cons_append]
    unfold lookupSize
    by_cases he : (e.1 == n) = true
    · rw [if_pos he, if_pos he]
    · rw [if_neg he, if_neg he]
      exact ih

/-! ## Claims -/

/-- C1: for every level `L` and threshold `T`, `should_log L T` is true
iff `L >= T` under the total order Debug < Info < Warn < Error; in
particular `should_log Debug Warn = false` and
`should_log Error Error = true` (the threshold is inclusive). -/
theorem c1_should_log_iff_level_ge_threshold :
    (∀ L T : LogLevel, L.should_log T = decide (T.idx ≤ L.idx)) ∧
    LogLevel.should_log .Debug .Warn = false ∧
    LogLevel.should_log .Error .Error = true := by
  refine ⟨fun L T => ?_, by decide, by decide⟩
  cases L <;> cases T <;> decide

/-- C7: for every level `L`, `from_str (strToLower (as_str L)) = L`;
`from_str` is total, matches the four names case-insensitively, and sends
every unrecognized input (e.g. "bogus") to `Info` instead of erroring. -/
theorem c7_parse_roundtrip_and_permissive_default :
    (∀ L : LogLevel, LogLevel.from_str (strToLower (LogLevel.as_str L)) = L) ∧
    (∀ s : String,
      strToLower s ≠ "debug" → strToLower s ≠ "info" →
      strToLower s ≠ "warn" → strToLower s ≠ "error" →
      LogLevel.from_str s = .Info) ∧
    LogLevel.from_str "bogus" = .Info := by
  refine ⟨fun L => ?_, fun s h1 h2 h3 h4 => ?_, by decide⟩
  · cases L <;> decide
  · simp only [LogLevel.from_str, h1, h2, h3, h4, if_false]

/-- Witness for C7 at a concrete unrecognized input. -/
theorem c7_parse_roundtrip_and_permissive_default_witness :
    LogLevel.from_str "TRACE" = .Info :=
  c7_parse_roundtrip_and_permissive_default.2.1 "TRACE"
    (by decide) (by decide) (by decide) (by decide)

/-- C8: `HttpOutput::write_log` issues exactly one POST per record with no
retry, and returns success iff the response status is 2xx; a non-2xx
status or transport/timeout error is reported as a failure to the caller
(the model keeps no state, so nothing is buffered). -/
theorem c8_http_one_post_success_iff_2xx :
    ∀ (net : LogPayload → HttpResult) (timestamp : String) (level : LogLevel)
      (message file : String) (line : Nat) (module : String)
      (context : Option String),
      (HttpOutput.write_log net timestamp level message file line module context).1 = 1 ∧
      ((HttpOutput.write_log net timestamp level message file line module context).2 = .ok () ↔
        ∃ status : Nat,
          net (mkLogPayload timestamp level message file line module context) =
            .response status ∧ 200 ≤ status ∧ status < 300) := by
  intro net timestamp level message file line module context
  unfold HttpOutput.write_log
  cases hn : net (mkLogPayload timestamp level message file line module context) with
  | response status =>
    by_cases hs : statusIsSuccess status = true
    · refine ⟨by simp [hn, hs], ?_⟩
      simp only [hn, hs, Bool.not_true, if_false]
      simp only [statusIsSuccess, Bool.and_eq_true, decide_eq_true_eq] at hs
      exact ⟨fun _ => ⟨status, rfl, hs.1, hs.2⟩, fun _ => rfl⟩
    · refine ⟨by simp [hn, hs], ?_⟩
      rw [Bool.not_eq_true] at hs
      simp only [hn, hs, Bool.not_false, if_true]
      constructor
      · intro h; exact absurd h (by simp)
      · rintro ⟨st, hst, h1, h2⟩
        cases hst
        simp only [statusIsSuccess, Bool.and_eq_true, decide_eq_true_eq,
          Bool.and_eq_false_iff, decide_eq_false_iff_not, not_le, not_lt] at hs
        omega
  | transportError e =>
    refine ⟨by simp [hn], ?_⟩
    simp only [hn]
    constructor
    · intro h; exact absurd h (by simp)
    · rintro ⟨st, hst, -, -⟩
      cases hst

/-- C9 counterexample: loading a `[logging]` section with every field
missing is a deserialization error; in particular the sink kind and
threshold are not defaulted to Console/Info as the claim states. -/
theorem c9_counterexample :
    LogConfig.fromRaw RawLoggingSection.empty =
      .error "Failed to parse logging config: missing field type" ∧
    LogConfig.fromRaw RawLoggingSection.empty ≠ .ok LogConfig.default := by
  refine ⟨rfl, fun h => ?_⟩
  rw [show LogConfig.fromRaw RawLoggingSection.empty =
    .error "Failed to parse logging config: missing field type" from rfl] at h
  cases h

/-- C9 (amended): the five fields with `#[serde(default)]` — file path,
log folder, max size, endpoint, timeout — take their documented defaults
when unspecified, but the sink kind and threshold have no default: a
section missing either one fails to deserialize.  The documented
Console/Info defaults exist only in `LogConfig::default`, which the file
loader does not fall back to. -/
theorem c9_optional_field_defaults :
    (∀ (r : RawLoggingSection) (t : LogType) (th : LogLevel),
      r.log_type = some t → r.threshold = some th →
      LogConfig.fromRaw r = .ok {
        log_type := t
        threshold := th
        file_path := r.file_path.getD "app.log"
        log_folder := r.log_folder.getD "logs"
        max_file_size_mb := r.max_file_size_mb.getD 10
        http_endpoint := r.http_endpoint.getD "http://localhost:8080/logs"
        http_timeout_seconds := r.http_timeout_seconds.getD 5 }) ∧
    (∀ r : RawLoggingSection, r.log_type = none →
      LogConfig.fromRaw r =
        .error "Failed to parse logging config: missing field type") ∧
    (∀ (r : RawLoggingSection) (t : LogType),
      r.log_type = some t → r.threshold = none →
      LogConfig.fromRaw r =
        .error "Failed to parse logging config: missing field threshold") ∧
    LogConfig.default = {
      log_type := .Console
      threshold := .Info
      file_path := "app.log"
      log_folder := "logs"
      max_file_size_mb := 10
      http_endpoint := "http://localhost:8080/logs"
      http_timeout_seconds := 5 } := by
  refine ⟨fun r t th h1 h2 => ?_, fun r h1 => ?_, fun r t h1 h2 => ?_, rfl⟩
  · simp [LogConfig.fromRaw, h1, h2, default_file_path, default_log_folder,
      default_max_file_size, default_http_endpoint, default_http_timeout]
  · simp [LogConfig.fromRaw, h1]
  · simp [LogConfig.fromRaw, h1, h2]

/-- Witness for C9 (amended) at a section carrying only the two required
fields. -/
theorem c9_optional_field_defaults_witness :
    LogConfig.fromRaw
      { log_type := some .File, threshold := some .Warn, file_path := none,
        log_folder := none, max_file_size_mb := none, http_endpoint := none,
        http_timeout_seconds := none } =
      .ok {
        log_type := .File
        threshold := .Warn
        file_path := "app.log"
        log_folder := "logs"
        max_file_size_mb := 10
        http_endpoint := "http://localhost:8080/logs"
        http_timeout_seconds := 5 } :=
  c9_optional_field_defaults.1
    { log_type := some .File, threshold := some .Warn, file_path := none,
      log_folder := none, max_file_size_mb := none, http_endpoint := none,
      http_timeout_seconds := none } .File .Warn rfl rfl

/-- C3: a concrete record used by several witnesses. -/
def c3Record : LogMessage where
  timestamp := "2025-03-01T10:00:00Z"
  level := .Error
  message := "boom"
  context := none
  file := "f.rs"
  line := 7
  module := "core"

/-- A capacity-1 channel already holding one record: saturated. -/
def c3FullChannel : Channel where
  capacity := 1
  queue := [{ c3Record with message := "older" }]
  closed := false

/-- An initialized `LoggerInner` whose sender is `c3FullChannel`. -/
def c3Logger : LoggerInner where
  initialized := true
  config := some LogConfig.default
  output := some []
  async_sender := some c3FullChannel
  async_enabled := true

/-- C3: on an initialized logger, when the record passes the level gate
and the non-blocking `try_send` fails (buffer full or consumer gone), the
record is written through the caller's own synchronous backend instead of
being dropped; the state change is exactly that one backend write. -/
theorem c3_send_failure_syncs_record :
    ∀ (s : LoggerInner) (stderr : List String) (config : LogConfig)
      (ch : Channel) (out : List LogMessage) (err : SendError)
      (timestamp : String) (level : LogLevel) (message : String)
      (context : Option String) (file : String) (line : Nat) (module : String),
      s.initialized = true → s.async_enabled = true →
      s.config = some config →
      level.should_log config.threshold = true →
      s.async_sender = some ch →
      ch.try_send ⟨timestamp, level, message, context, file, line, module⟩ = .error err →
      s.output = some out →
      s.log stderr timestamp level message context file line module =
        ({ s with
            output := some (out ++ [⟨timestamp, level, message, context, file, line, module⟩]) },
          stderr) := by
  intro s stderr config ch out err ts lv msg ctx f ln md h1 h2 hc hg hs hf ho
  simp only [LoggerInner.log, h1, h2, Bool.not_true, Bool.or_self, Bool.false_eq_true,
    if_false, hc, hg, if_true, hs, hf, ho]

/-- Witness for C3: the saturated capacity-1 channel rejects the send and
the record lands in the backend's call list. -/
theorem c3_send_failure_syncs_record_witness :
    LoggerInner.log c3Logger [] "2025-03-01T10:00:00Z" .Error "boom" none "f.rs" 7 "core" =
      ({ c3Logger with output := some [c3Record] }, []) :=
  c3_send_failure_syncs_record c3Logger [] LogConfig.default c3FullChannel [] .full
    "2025-03-01T10:00:00Z" .Error "boom" none "f.rs" 7 "core"
    rfl rfl rfl (by decide) rfl rfl rfl

/-- The C10 state invariant: an initialized logger has a configuration, a
synchronous backend, and a channel sender. -/
def innerInv (s : LoggerInner) : Prop :=
  s.initialized = true →
    s.config.isSome = true ∧ s.output.isSome = true ∧ s.async_sender.isSome = true

/-- `LoggerInner::log` never changes `initialized` or `config` and never
clears `output` or `async_sender`. -/
theorem LoggerInner.log_preserves_fields (s : LoggerInner) (stderr : List String)
    (ts : String) (lv : LogLevel) (msg : String) (ctx : Option String)
    (f : String) (ln : Nat) (md : String) :
    (s.log stderr ts lv msg ctx f ln md).1.initialized = s.initialized ∧
    (s.log stderr ts lv msg ctx f ln md).1.config = s.config ∧
    (s.log stderr ts lv msg ctx f ln md).1.output.isSome = s.output.isSome ∧
    (s.log stderr ts lv msg ctx f ln md).1.async_sender.isSome = s.async_sender.isSome := by
  unfold LoggerInner.log
  dsimp only
  (repeat' split) <;> refine ⟨rfl, rfl, ?_, ?_⟩ <;> simp_all

/-- C10: `new` establishes the invariant that an initialized logger has
`config`, `output` and `async_sender` all set, and both
`init_with_config` (under either failure of its external steps) and `log`
preserve it; moreover no operation ever resets one of those fields to
`None`, so an initialized logger always has a threshold to gate on and a
backend for the synchronous fallback. -/
theorem c10_initialized_logger_fields_invariant :
    innerInv LoggerInner.new ∧
    (∀ (s : LoggerInner) (config : LogConfig) (cOk rOk : Bool),
      innerInv s →
      innerInv (s.init_with_config config cOk rOk).1 ∧
      (s.init_with_config config cOk rOk).1.config.isSome = true ∧
      (s.output.isSome = true →
        (s.init_with_config config cOk rOk).1.output.isSome = true) ∧
      (s.async_sender.isSome = true →
        (s.init_with_config config cOk rOk).1.async_sender.isSome = true)) ∧
    (∀ (s : LoggerInner) (stderr : List String) (ts : String) (lv : LogLevel)
      (msg : String) (ctx : Option String) (f : String) (ln : Nat) (md : String),
      innerInv s →
      innerInv (s.log stderr ts lv msg ctx f ln md).1 ∧
      (s.config.isSome = true →
        (s.log stderr ts lv msg ctx f ln md).1.config.isSome = true) ∧
      (s.output.isSome = true →
        (s.log stderr ts lv msg ctx f ln md).1.output.isSome = true) ∧
      (s.async_sender.isSome = true →
        (s.log stderr ts lv msg ctx f ln md).1.async_sender.isSome = true)) := by
  refine ⟨?_, fun s config cOk rOk hinv => ?_, ?_⟩
  · intro h
    cases h
  · cases cOk with
    | false =>
      refine ⟨fun h => ?_, rfl, fun h => h, fun h => h⟩
      simp only [LoggerInner.init_with_config, Bool.not_false, if_true] at h ⊢
      obtain ⟨-, h2, h3⟩ := hinv h
      exact ⟨rfl, h2, h3⟩
    | true =>
      cases rOk with
      | false =>
        refine ⟨fun h => ?_, rfl, fun _ => rfl, fun h => h⟩
        simp only [LoggerInner.init_with_config, Bool.not_true, if_false, if_true] at h ⊢
        obtain ⟨-, -, h3⟩ := hinv h
        exact ⟨rfl, rfl, h3⟩
      | true => exact ⟨fun _ => ⟨rfl, rfl, rfl⟩, rfl, fun _ => rfl, fun _ => rfl⟩
  · intro s stderr ts lv msg ctx f ln md hinv
    obtain ⟨hi, hc, ho, ha⟩ :=
      LoggerInner.log_preserves_fields s stderr ts lv msg ctx f ln md
    refine ⟨fun h => ?_, fun h => ?_, fun h => ?_, fun h => ?_⟩
    · rw [hi] at h
      obtain ⟨a, b, c⟩ := hinv h
      exact ⟨by rw [hc]; exact a, by rw [ho]; exact b, by rw [ha]; exact c⟩
    · rw [hc]; exact h
    · rw [ho]; exact h
    · rw [ha]; exact h

/-- Witness for C10 at the concrete initialized logger `c3Logger` and a
record that takes the sync-fallback path. -/
theorem c10_initialized_logger_fields_invariant_witness :
    innerInv (LoggerInner.log c3Logger [] "t" .Warn "w" none "f" 1 "m").1 :=
  (c10_initialized_logger_fields_invariant.2.2 c3Logger [] "t" .Warn "w" none "f" 1 "m"
    (fun _ => ⟨rfl, rfl, rfl⟩)).1

/-- An initialized logger behind a poisoned mutex. -/
def poisonedLogger : GlobalLogger where
  inner := c3Logger
  poisoned := true

/-- C6 counterexample: with the mutex poisoned, `Logger::log_with_metadata`
on an initialized logger does not take the poisoned guard's inner state
and continue operating on it — the passing record is neither enqueued nor
written through the backend; the state is returned untouched and the line
goes to stderr with a `MUTEX POISONED` marker. -/
theorem c6_counterexample :
    Logger.log_with_metadata poisonedLogger [] "2025-03-01T10:00:00Z" .Error "boom"
        none "src/f.rs" 7 "core" =
      (poisonedLogger,
        ["2025-03-01T10:00:00Z [ERROR] [f.rs:7] [core] boom | MUTEX POISONED\n"]) := by
  rfl

/-- C6 (amended): `Logger::init_with_config` recovers from a poisoned
mutex by taking the inner state and continuing to operate on it, but
`Logger::log_with_metadata` does not — on poison it leaves the logger
state untouched and writes the record, marked `MUTEX POISONED` and with
its context dropped, to stderr.  The record is not silently lost, but the
lock is not recovered on the log path. -/
theorem c6_poison_recovered_in_init_not_in_log :
    (∀ (g : GlobalLogger) (config : LogConfig) (cOk rOk : Bool),
      g.poisoned = true →
      Logger.init_with_config g config cOk rOk =
        ({ g with inner := (g.inner.init_with_config config cOk rOk).1 },
          (g.inner.init_with_config config cOk rOk).2)) ∧
    (∀ (g : GlobalLogger) (stderr : List String) (ts : String) (lv : LogLevel)
      (msg : String) (ctx : Option String) (f : String) (ln : Nat) (md : String),
      g.poisoned = true →
      Logger.log_with_metadata g stderr ts lv msg ctx f ln md =
        (g, stderr ++
          [ts ++ " [" ++ lv.as_str ++ "] [" ++ baseNameOfPath f ++ ":" ++
            natToString ln ++ "] [" ++ md ++ "] " ++ msg ++ " | MUTEX POISONED\n"])) := by
  refine ⟨fun g config cOk rOk hp => rfl, fun g stderr ts lv msg ctx f ln md hp => ?_⟩
  simp only [Logger.log_with_metadata, hp, if_true]

/-- Witness for C6 (amended) on the poisoned logger. -/
theorem c6_poison_recovered_in_init_not_in_log_witness :
    Logger.log_with_metadata poisonedLogger [] "t" .Info "m" (some "c") "a/b.rs" 3 "mod" =
      (poisonedLogger,
        ["t [INFO] [b.rs:3] [mod] m | MUTEX POISONED\n"]) :=
  c6_poison_recovered_in_init_not_in_log.2 poisonedLogger [] "t" .Info "m" (some "c")
    "a/b.rs" 3 "mod" rfl

/-- `consumerStep` changes neither the stop flag nor the channel's closed
flag. -/
theorem consumerStep_preserves_flags (s : AsyncSystem) :
    (consumerStep s).stopSignalled = s.stopSignalled ∧
    (consumerStep s).channel.closed = s.channel.closed := by
  unfold consumerStep
  split <;> exact ⟨rfl, rfl⟩

/-- `consumerSteps` changes neither the stop flag nor the channel's closed
flag. -/
theorem consumerSteps_preserves_flags (k : Nat) (s : AsyncSystem) :
    (consumerSteps k s).stopSignalled = s.stopSignalled ∧
    (consumerSteps k s).channel.closed = s.channel.closed := by
  induction k generalizing s with
  | zero => exact ⟨rfl, rfl⟩
  | succ k ih =>
    obtain ⟨h1, h2⟩ := ih (consumerStep s)
    obtain ⟨g1, g2⟩ := consumerStep_preserves_flags s
    exact ⟨h1.trans g1, h2.trans g2⟩

/-- Running at least as many consumer iterations as there are buffered
records drains the queue into the backend, in order. -/
theorem consumerSteps_drains (k : Nat) (s : AsyncSystem)
    (h : s.channel.queue.length ≤ k) :
    (consumerSteps k s).backendOutput = s.backendOutput ++ s.channel.queue ∧
    (consumerSteps k s).channel.queue = [] := by
  induction k generalizing s with
  | zero =>
    have hq : s.channel.queue = [] :=
      List.eq_nil_of_length_eq_zero (Nat.le_zero.mp h)
    rw [consumerSteps, hq]
    exact ⟨(List.append_nil _).symm, rfl⟩
  | succ k ih =>
    cases hq : s.channel.queue with
    | nil =>
      have hstep : consumerStep s = s := by simp [consumerStep, hq]
      rw [consumerSteps, hstep]
      have hz := ih s (by rw [hq]; exact Nat.zero_le k)
      rw [hq] at hz
      exact hz
    | cons m rest =>
      have hstep : consumerStep s =
          { s with
            channel := { s.channel with queue := rest }
            backendOutput := s.backendOutput ++ [m] } := by
        simp [consumerStep, hq]
      rw [consumerSteps, hstep]
      have hlen : rest.length ≤ k := by
        have hh := h; rw [hq] at hh; simpa using hh
      obtain ⟨h1, h2⟩ :=
        ih { s with
              channel := { s.channel with queue := rest }
              backendOutput := s.backendOutput ++ [m] } hlen
      refine ⟨?_, h2⟩
      rw [h1]
      simp

/-- An async system with one record buffered, capacity 1024, nothing
signalled: the state right before a `shutdown()` call in the C4 scenario
(N = 1, below capacity). -/
def c4Pending : AsyncSystem where
  channel := { capacity := 1024, queue := [c3Record], closed := false }
  backendOutput := []
  stopSignalled := false

/-- C4 counterexample: `shutdown()` sends no stop signal to the consumer
and closes nothing, and when the scheduler gives the consumer no cycles
during the grace period (`k = 0`, which nothing in `shutdown` prevents:
it only sleeps), the single enqueued record is still absent from the
backend's output when `shutdown` returns `Ok` — the claimed signal and
guaranteed drain both fail. -/
theorem c4_counterexample :
    Logger.shutdown c4Pending 0 = (c4Pending, .ok ()) ∧
    (Logger.shutdown c4Pending 0).1.stopSignalled = false ∧
    (Logger.shutdown c4Pending 0).1.channel.closed = false ∧
    (Logger.shutdown c4Pending 0).1.backendOutput = [] := by
  exact ⟨rfl, rfl, rfl, rfl⟩

/-- C4 (amended): `shutdown()` always returns `Ok` after its fixed grace
period and performs no synchronization: it neither signals the consumer
to stop accepting work nor closes the channel.  Buffered records drain
only by the consumer running during the grace period: if the scheduler
runs it for at least as many iterations as there are buffered records,
all of them are present in the backend's output, in order; otherwise
records may remain buffered. -/
theorem c4_shutdown_no_signal_best_effort_drain :
    ∀ (s : AsyncSystem) (k : Nat),
      (Logger.shutdown s k).2 = .ok () ∧
      (Logger.shutdown s k).1.stopSignalled = s.stopSignalled ∧
      (Logger.shutdown s k).1.channel.closed = s.channel.closed ∧
      (s.channel.queue.length ≤ k →
        (Logger.shutdown s k).1.backendOutput = s.backendOutput ++ s.channel.queue ∧
        (Logger.shutdown s k).1.channel.queue = []) := by
  intro s k
  obtain ⟨h1, h2⟩ := consumerSteps_preserves_flags k s
  exact ⟨rfl, h1, h2, fun h => consumerSteps_drains k s h⟩

/-- An async system with two records buffered, used by the C4 witness. -/
def c4TwoPending : AsyncSystem where
  channel := { capacity := 1024, queue := [c3Record, { c3Record with message := "second" }], closed := false }
  backendOutput := []
  stopSignalled := false

/-- Witness for C4 (amended): two buffered records, two consumer
iterations during the grace period, both records delivered. -/
theorem c4_shutdown_no_signal_best_effort_drain_witness :
    (Logger.shutdown c4TwoPending 2).1.backendOutput =
      [c3Record, { c3Record with message := "second" }] :=
  ((c4_shutdown_no_signal_best_effort_drain c4TwoPending 2).2.2.2 (by decide)).1

/-- The C5 example: a `FileOutput` on `logs/app.log` with the default
10 MB threshold, file open, 5 bytes written. -/
def c5File : FileOutput where
  file_stem := "app"
  extension := "log"
  max_file_size_bytes := 10485760
  current_file := true
  current_size := 5

/-- The C5 example folder: the active file plus backups `app.log.1` and
`app.log.2`. -/
def c5Folder : Dir := [("app.log", 5), ("app.log.1", 3), ("app.log.2", 4)]

/-- C5: `rotate_logs` scans the folder for numbered backups
`<name>.<ext>.<N>`, computes the maximum `N` (0 when none scan), and
renames the current file to `<name>.<ext>.<N_max+1>`; with `app.log.1`
and `app.log.2` present a rotation produces `app.log.3`; and no prior
generation is deleted — every backup entry in the folder survives the
rotation, and the old active file survives under the new backup name with
its size intact.  The bound `N_max + 1 < 2^32` reflects the source's
`u32` increment, under which the `Nat` model agrees with the Rust
arithmetic. -/
theorem c5_rotate_to_max_plus_one_preserves_backups :
    (FileOutput.rotate_logs c5File c5Folder =
      .ok [("app.log.1", 3), ("app.log.2", 4), ("app.log.3", 5)]) ∧
    (∀ (fo : FileOutput) (d : Dir) (sz : Nat),
      lookupSize d fo.fileName = some sz →
      maxBackupIndex fo.fileName d + 1 < 2 ^ 32 →
      fo.rotate_logs d =
        .ok (removeName (removeName d fo.fileName)
            (fo.backupName (maxBackupIndex fo.fileName d + 1)) ++
          [(fo.backupName (maxBackupIndex fo.fileName d + 1), sz)]) ∧
      (∀ d' : Dir, fo.rotate_logs d = .ok d' →
        lookupSize d' (fo.backupName (maxBackupIndex fo.fileName d + 1)) = some sz ∧
        ∀ e ∈ d, (∃ i, backupIndexOf fo.fileName e.1 = some i) → e ∈ d')) := by
  constructor
  · rfl
  · intro fo d sz hlk hbound
    have hrot : fo.rotate_logs d =
        .ok (removeName (removeName d fo.fileName)
            (fo.backupName (maxBackupIndex fo.fileName d + 1)) ++
          [(fo.backupName (maxBackupIndex fo.fileName d + 1), sz)]) := by
      unfold FileOutput.rotate_logs
      rw [hlk]
    refine ⟨hrot, fun d' hd' => ?_⟩
    rw [hrot] at hd'
    cases hd'
    constructor
    · exact lookupSize_removeName_append (removeName d fo.fileName)
        (fo.backupName (maxBackupIndex fo.fileName d + 1)) sz
    · rintro e he ⟨i, hi⟩
      have hne1 : e.1 ≠ fo.fileName := by
        intro hEq
        rw [hEq, backupIndexOf_fileName] at hi
        cases hi
      have hle : i ≤ maxBackupIndex fo.fileName d :=
        backupIndex_le_maxBackupIndex fo.fileName d e he i hi
      have hne2 : e.1 ≠ fo.backupName (maxBackupIndex fo.fileName d + 1) := by
        intro hEq
        rw [hEq, backupIndexOf_backupName fo _ hbound] at hi
        cases hi
        omega
      exact List.mem_append_left _
        ((mem_removeName _ _ _).mpr
          ⟨(mem_removeName _ _ _).mpr ⟨he, hne1⟩, hne2⟩)

/-- Witness for C5: in the example folder the old active file (5 bytes)
survives as `app.log.3` and the prior generations `app.log.1` and
`app.log.2` are still present after the rotation. -/
theorem c5_rotate_to_max_plus_one_preserves_backups_witness :
    lookupSize [("app.log.1", 3), ("app.log.2", 4), ("app.log.3", 5)]
        (FileOutput.backupName c5File 3) = some 5 ∧
    ("app.log.1", 3) ∈ [("app.log.1", 3), ("app.log.2", 4), ("app.log.3", 5)] ∧
    ("app.log.2", 4) ∈ [("app.log.1", 3), ("app.log.2", 4), ("app.log.3", 5)] := by
  have h := (c5_rotate_to_max_plus_one_preserves_backups.2 c5File c5Folder 5
    rfl (by decide)).2
    [("app.log.1", 3), ("app.log.2", 4), ("app.log.3", 5)]
    c5_rotate_to_max_plus_one_preserves_backups.1
  exact ⟨h.1, h.2 ("app.log.1", 3) (by decide) ⟨1, by decide⟩,
    h.2 ("app.log.2", 4) (by decide) ⟨2, by decide⟩⟩

/-- After renaming to a different name, the source name is gone. -/
theorem lookupSize_removeName_append_ne (d : Dir) (n m : String) (sz : Nat)
    (h : m ≠ n) :
    lookupSize (removeName d n ++ [(m, sz)]) n = none := by
  induction d with
  | nil => simp [removeName, lookupSize, h]
  | cons e d ih =>
    unfold removeName at ih ⊢
    rw [List.filter_cons]
    by_cases he : e.1 = n
    · have hb : (e.1 != n) = false := by simp [he]
      rw [hb]
      exact ih
    · have hb : (e.1 != n) = true := by simp [he]
      rw [hb]
      simp only [if_true, List.cons_append]
      unfold lookupSize
      rw [if_neg (by simpa using he)]
      exact ih

/-- Unfolding `lookupSize` one entry at a time. -/
theorem lookupSize_cons (e : String × Nat) (d : Dir) (n : String) :
    lookupSize (e :: d) n =
      if (e.1 == n) = true then some e.2 else lookupSize d n := rfl

/-- Appending a fresh entry makes it visible when the name was absent. -/
theorem lookupSize_append_single_self (d : Dir) (n : String) (v : Nat)
    (h : lookupSize d n = none) :
    lookupSize (d ++ [(n, v)]) n = some v := by
  induction d with
  | nil => simp [lookupSize]
  | cons e d ih =>
    rw [lookupSize_cons] at h
    rw [List.cons_append, lookupSize_cons]
    by_cases he : (e.1 == n) = true
    · rw [if_pos he] at h
      cases h
    · rw [if_neg he] at h
      rw [if_neg he]
      exact ih h

/-- Growing the named file is visible in its size. -/
theorem lookupSize_appendBytes_self (d : Dir) (n : String) (b v : Nat)
    (h : lookupSize d n = some v) :
    lookupSize (appendBytes d n b) n = some (v + b) := by
  induction d with
  | nil => cases h
  | cons e d ih =>
    rw [lookupSize_cons] at h
    unfold appendBytes
    rw [List.map_cons]
    by_cases he : (e.1 == n) = true
    · rw [if_pos he] at h
      rw [if_pos he, lookupSize_cons]
      simp only
      rw [if_pos he]
      cases h
      rfl
    · rw [if_neg he] at h
      rw [if_neg he, lookupSize_cons]
      rw [if_neg he]
      exact ih h

/-- Growing one file leaves every other name's lookup unchanged. -/
theorem lookupSize_appendBytes_ne (d : Dir) (n m : String) (b : Nat)
    (h : m ≠ n) :
    lookupSize (appendBytes d n b) m = lookupSize d m := by
  induction d with
  | nil => rfl
  | cons e d ih =>
    unfold appendBytes
    rw [List.map_cons]
    by_cases hen : (e.1 == n) = true
    · have hbm : (e.1 == m) = false := by
        refine beq_eq_false_iff_ne.mpr fun hm => ?_
        exact h (hm.symm.trans (beq_iff_eq.mp hen))
      rw [if_pos hen, lookupSize_cons, lookupSize_cons]
      simp only
      rw [if_neg (by simp [hbm]), if_neg (by simp [hbm])]
      exact ih
    · rw [if_neg hen, lookupSize_cons, lookupSize_cons]
      by_cases hem : (e.1 == m) = true
      · rw [if_pos hem, if_pos hem]
      · rw [if_neg hem, if_neg hem]
        exact ih

/-- The folder produced by a rotation no longer contains the active
file's name. -/
theorem lookupSize_rotated_none (fo : FileOutput) (d : Dir) (i sz : Nat) :
    lookupSize
      (removeName (removeName d fo.fileName) (fo.backupName i) ++
        [(fo.backupName i, sz)])
      fo.fileName = none := by
  have h1 : removeName (removeName d fo.fileName) (fo.backupName i) =
      removeName (removeName d (fo.backupName i)) fo.fileName := by
    unfold removeName
    rw [List.filter_comm]
  rw [h1]
  exact lookupSize_removeName_append_ne _ fo.fileName _ sz
    (backupName_ne_fileName fo i)

/-- `write_log` on an open file below the rotation trigger: no rotation,
the line is appended to the current file and the counter grows by its
byte length. -/
theorem write_log_no_rotation (fo : FileOutput) (d : Dir)
    (ts : String) (lv : LogLevel) (msg : String) (f : String) (ln : Nat)
    (md : String) (ctx : Option String)
    (hcf : fo.current_file = true)
    (hle : fo.current_size + lineBytes ts lv msg f ln md ctx ≤ fo.max_file_size_bytes) :
    fo.write_log d ts lv msg f ln md ctx =
      .ok ({ fo with current_size := fo.current_size + lineBytes ts lv msg f ln md ctx },
        appendBytes d fo.fileName (lineBytes ts lv msg f ln md ctx)) := by
  have hdec : decide (fo.current_size + lineBytes ts lv msg f ln md ctx >
      fo.max_file_size_bytes) = false :=
    decide_eq_false (Nat.not_lt.mpr hle)
  unfold FileOutput.write_log
  rw [if_pos hcf]
  dsimp only
  rw [hcf, hdec]
  simp only [Bool.and_false, Bool.false_eq_true, if_false]
  rw [hcf]
  simp only [if_true]

/-- `write_log` on an open file at the rotation trigger: the handle is
closed, the folder rotated, the file reopened empty, and the triggering
line written to the fresh file. -/
theorem write_log_trigger (fo : FileOutput) (d : Dir)
    (ts : String) (lv : LogLevel) (msg : String) (f : String) (ln : Nat)
    (md : String) (ctx : Option String) (sz : Nat)
    (hcf : fo.current_file = true)
    (hlk : lookupSize d fo.fileName = some sz)
    (htrig : fo.current_size + lineBytes ts lv msg f ln md ctx >
      fo.max_file_size_bytes) :
    fo.write_log d ts lv msg f ln md ctx =
      .ok ({ fo with current_size := 0 + lineBytes ts lv msg f ln md ctx },
        appendBytes
          ((removeName (removeName d fo.fileName)
              (fo.backupName (maxBackupIndex fo.fileName d + 1)) ++
            [(fo.backupName (maxBackupIndex fo.fileName d + 1), sz)]) ++
            [(fo.fileName, 0)])
          fo.fileName (lineBytes ts lv msg f ln md ctx)) := by
  have hdec : decide (fo.current_size + lineBytes ts lv msg f ln md ctx >
      fo.max_file_size_bytes) = true := decide_eq_true htrig
  have hrot : FileOutput.rotate_logs { fo with current_file := false } d =
      .ok (removeName (removeName d fo.fileName)
          (fo.backupName (maxBackupIndex fo.fileName d + 1)) ++
        [(fo.backupName (maxBackupIndex fo.fileName d + 1), sz)]) := by
    unfold FileOutput.rotate_logs
    have hfn : FileOutput.fileName { fo with current_file := false } = fo.fileName := rfl
    have hbn : FileOutput.backupName { fo with current_file := false } = fo.backupName := rfl
    rw [hfn, hbn, hlk]
  have hgone := lookupSize_rotated_none fo d (maxBackupIndex fo.fileName d + 1) sz
  have hopen : FileOutput.open_or_rotate { fo with current_file := false }
      (removeName (removeName d fo.fileName)
          (fo.backupName (maxBackupIndex fo.fileName d + 1)) ++
        [(fo.backupName (maxBackupIndex fo.fileName d + 1), sz)]) =
      .ok ({ fo with current_file := true, current_size := 0 },
        (removeName (removeName d fo.fileName)
            (fo.backupName (maxBackupIndex fo.fileName d + 1)) ++
          [(fo.backupName (maxBackupIndex fo.fileName d + 1), sz)]) ++
          [(fo.fileName, 0)]) := by
    unfold FileOutput.open_or_rotate
    have hfn : FileOutput.fileName { fo with current_file := false } = fo.fileName := rfl
    rw [hfn, hgone]
    simp only [Option.isSome_none, Bool.false_and, Bool.false_eq_true, if_false,
      Option.getD_none]
  unfold FileOutput.write_log
  rw [if_pos hcf]
  dsimp only
  rw [hcf, hdec]
  simp only [Bool.and_self, if_true]
  rw [hrot]
  dsimp only
  rw [hopen]
  rfl

/-- A file configuration with rotation threshold 0 bytes, as produced by
`FileOutput::new` from a configuration with `max_file_size_mb = 0`. -/
def c2ZeroConfig : LogConfig :=
  { LogConfig.default with log_type := .File, max_file_size_mb := 0 }

/-- The `FileOutput` state `FileOutput::new` builds from `c2ZeroConfig`. -/
def c2File0 : FileOutput where
  file_stem := "app"
  extension := "log"
  max_file_size_bytes := 0
  current_file := true
  current_size := 0

/-- C2 counterexample: with the configured threshold 0 bytes
(`max_file_size_mb = 0`, so `max_file_size_bytes = 0`), a single write of
a 26-byte line rotates first, as claimed, but then writes the whole line
into the fresh `app.log`, which ends the write at 26 bytes — past the
threshold.  A log file can therefore grow past the threshold by a write
to it whenever one formatted line is longer than the threshold. -/
theorem c2_counterexample :
    FileOutput.new c2ZeroConfig "app" "log" [] = .ok (c2File0, [("app.log", 0)]) ∧
    FileOutput.write_log c2File0 [("app.log", 0)] "t" .Error "hello" "f" 1 "m" none =
      .ok (⟨"app", "log", 0, true, 26⟩, [("app.log.1", 0), ("app.log", 26)]) ∧
    lookupSize [("app.log.1", 0), ("app.log", 26)] c2File0.fileName = some 26 ∧
    c2File0.max_file_size_bytes = 0 := by
  exact ⟨rfl, rfl, rfl, rfl⟩

/-- C2 (amended): on an open file whose tracked size matches the folder
(`lookupSize d fileName = some current_size`), a write whose
`current_size + line_len` would exceed the threshold closes, rotates and
reopens before writing, and the triggering record lands in the new file
(which then holds exactly that one line) with the old bytes preserved as
the new highest-numbered backup; consequently, provided the formatted
line itself is no longer than the threshold, the active file never ends a
write past the threshold.  (Without that proviso the bound fails — see
the counterexample.)  The hypothesis `maxBackupIndex + 1 < 2^32` restricts
the statement to the domain where the `Nat` model of the source's `u32`
index increment is faithful — past it the Rust arithmetic wraps (release)
or panics (debug). -/
theorem c2_rotation_before_overflow :
    ∀ (fo : FileOutput) (d : Dir) (ts : String) (lv : LogLevel) (msg : String)
      (f : String) (ln : Nat) (md : String) (ctx : Option String),
      fo.current_file = true →
      lookupSize d fo.fileName = some fo.current_size →
      lineBytes ts lv msg f ln md ctx ≤ fo.max_file_size_bytes →
      maxBackupIndex fo.fileName d + 1 < 2 ^ 32 →
      ∃ fo' d', fo.write_log d ts lv msg f ln md ctx = .ok (fo', d') ∧
        fo'.current_size ≤ fo.max_file_size_bytes ∧
        lookupSize d' fo.fileName = some fo'.current_size ∧
        (fo.current_size + lineBytes ts lv msg f ln md ctx > fo.max_file_size_bytes →
          fo'.current_size = lineBytes ts lv msg f ln md ctx ∧
          lookupSize d' (fo.backupName (maxBackupIndex fo.fileName d + 1)) =
            some fo.current_size) := by
  intro fo d ts lv msg f ln md ctx hcf hlk hfit hbound
  by_cases htrig : fo.current_size + lineBytes ts lv msg f ln md ctx >
      fo.max_file_size_bytes
  · refine ⟨_, _, write_log_trigger fo d ts lv msg f ln md ctx
      fo.current_size hcf hlk htrig, ?_, ?_, fun _ => ⟨?_, ?_⟩⟩
    · simpa using hfit
    · have h0 : lookupSize
          ((removeName (removeName d fo.fileName)
              (fo.backupName (maxBackupIndex fo.fileName d + 1)) ++
            [(fo.backupName (maxBackupIndex fo.fileName d + 1), fo.current_size)]) ++
            [(fo.fileName, 0)]) fo.fileName = some 0 :=
        lookupSize_append_single_self _ fo.fileName 0
          (lookupSize_rotated_none fo d _ fo.current_size)
      exact lookupSize_appendBytes_self _ fo.fileName _ 0 h0
    · simp
    · have hb := backupName_ne_fileName fo (maxBackupIndex fo.fileName d + 1)
      have h1 : lookupSize
          (removeName (removeName d fo.fileName)
              (fo.backupName (maxBackupIndex fo.fileName d + 1)) ++
            [(fo.backupName (maxBackupIndex fo.fileName d + 1), fo.current_size)])
          (fo.backupName (maxBackupIndex fo.fileName d + 1)) = some fo.current_size :=
        lookupSize_removeName_append (removeName d fo.fileName) _ fo.current_size
      have h2 := lookupSize_append_single_ne
        (removeName (removeName d fo.fileName)
            (fo.backupName (maxBackupIndex fo.fileName d + 1)) ++
          [(fo.backupName (maxBackupIndex fo.fileName d + 1), fo.current_size)])
        (fo.backupName (maxBackupIndex fo.fileName d + 1)) fo.fileName 0 hb
      have h3 := lookupSize_appendBytes_ne
        ((removeName (removeName d fo.fileName)
            (fo.backupName (maxBackupIndex fo.fileName d + 1)) ++
          [(fo.backupName (maxBackupIndex fo.fileName d + 1), fo.current_size)]) ++
          [(fo.fileName, 0)])
        fo.fileName (fo.backupName (maxBackupIndex fo.fileName d + 1))
        (lineBytes ts lv msg f ln md ctx) hb
      rw [h3, h2, h1]
  · have hle : fo.current_size + lineBytes ts lv msg f ln md ctx ≤
        fo.max_file_size_bytes := Nat.not_lt.mp htrig
    refine ⟨_, _, write_log_no_rotation fo d ts lv msg f ln md ctx hcf hle,
      hle, ?_, fun h => absurd h htrig⟩
    exact lookupSize_appendBytes_self d fo.fileName _ fo.current_size hlk

/-- Witness for C2 (amended) at the concrete 10 MB file state: the short
line fits, the write succeeds, and the active file stays within the
threshold. -/
theorem c2_rotation_before_overflow_witness :
    ∃ fo' d', FileOutput.write_log c5File c5Folder "t" .Error "hello" "f" 1 "m" none =
        .ok (fo', d') ∧
      fo'.current_size ≤ c5File.max_file_size_bytes ∧
      lookupSize d' c5File.fileName = some fo'.current_size ∧
      (c5File.current_size + lineBytes "t" .Error "hello" "f" 1 "m" none >
          c5File.max_file_size_bytes →
        fo'.current_size = lineBytes "t" .Error "hello" "f" 1 "m" none ∧
        lookupSize d' (c5File.backupName (maxBackupIndex c5File.fileName c5Folder + 1)) =
          some c5File.current_size) :=
  c2_rotation_before_overflow c5File c5Folder "t" .Error "hello" "f" 1 "m" none
    rfl rfl (by decide) (by decide)

end LibLogger
